import Mathlib

/-!
# Icinga 2: `ObjectLock` and `SumAggregator`

A shallow embedding of `lib/base/objectlock.hpp` (the scoped lock for Objects)
and of `lib/livestatus/sumaggregator.hpp` (the accumulator of the Sum
statistic), followed by the properties proved about them.

Conventions of the embedding

* A `const Object *` is an `Option ObjId`: `none` is `NULL`, `some p` addresses
  the Object stored at `p` in the heap. Every non-null pointer addresses an
  Object (no dangling pointers).
* A member function that mutates `*this` and `*m_Object` takes the heap and the
  guard and gives back both, wrapped in an `Outcome` that records how the call
  ended.
* The preprocessor symbol `_DEBUG` is the boolean parameter `debug`.
* A thread is named by a natural number; `boost::thread::id` additionally has
  the default value "not any thread", so it is an `Option ThreadId`.
-/

namespace icinga

/-! ## Data model -/

/-- Address of an Object on the heap. -/
abbrev ObjId := Nat

/-- Name of a running thread. -/
abbrev ThreadId := Nat

/-- How a call ended. `done` is a normal return; `assertFailed` is a failed
`ASSERT`, which halts the program in the state it had reached; `blocked` is a
call that waits in `m_Mutex.Lock()` because the mutex is held, the state being
the one the waiting thread sees; `undefinedBehaviour` is a dereference of
`NULL`. -/
inductive Outcome (σ : Type) where
  | done (s : σ)
  | assertFailed (s : σ)
  | blocked (s : σ)
  | undefinedBehaviour
  deriving DecidableEq, Repr

/-- Sequencing of calls: the second call runs only if the first returned; any
other ending of the first call is the ending of the sequence. -/
def Outcome.andThen {σ : Type} (o : Outcome σ) (f : σ → Outcome σ) : Outcome σ :=
  match o with
  | .done s => f s
  | .assertFailed s => .assertFailed s
  | .blocked s => .blocked s
  | .undefinedBehaviour => .undefinedBehaviour

/-- Modelled from the spec: the exclusive-or-free mutual-exclusion lock that
every entity owns (the type of `Object::m_Mutex`; `base/object.hpp` is not among
the sources). `held` is the lock itself. `locks` and `unlocks` count the
completed `Lock()` and `Unlock()` calls, so that "locked exactly once" can be
stated. -/
structure Mutex where
  held : Bool
  locks : Nat
  unlocks : Nat
  deriving DecidableEq, Repr

/-- Modelled from the spec: the state of the mutex after a `Lock()` call that
completed. The call completes only while the mutex is free; the caller checks
that (see `ObjectLock.Lock`). -/
def Mutex.Lock (m : Mutex) : Mutex :=
  { m with held := true, locks := m.locks + 1 }

/-- Modelled from the spec: the state of the mutex after `Unlock()`. -/
def Mutex.Unlock (m : Mutex) : Mutex :=
  { m with held := false, unlocks := m.unlocks + 1 }

/-- Modelled from the spec: the part of `Object` (`base/object.hpp`, not among
the sources) that `ObjectLock` touches: the exclusive lock and the debug-only
bookkeeping, a "currently locked" flag plus the owning thread identity. -/
structure Object where
  m_Mutex : Mutex
  m_Locked : Bool
  m_LockOwner : Option ThreadId
  deriving DecidableEq, Repr

/-- Modelled from the spec: `Object::OwnsLock()` (debug builds), whether the
calling thread already holds the lock of this entity according to the
bookkeeping: the flag is set and the recorded owner is the caller. -/
def Object.OwnsLock (o : Object) (caller : ThreadId) : Bool :=
  o.m_Locked && decide (o.m_LockOwner = some caller)

/-- The Objects of the program, by address. -/
abbrev Heap := ObjId → Object

/-- Assignment through a pointer: the Object at `p` becomes `o`. -/
def Heap.store (h : Heap) (p : ObjId) (o : Object) : Heap :=
  fun q => if q = p then o else h q

/-- The data members of `struct ObjectLock`. -/
structure ObjectLock where
  m_Object : Option ObjId
  m_Locked : Bool
  deriving DecidableEq, Repr

namespace ObjectLock

/-! ## Member functions of `ObjectLock` -/

/-- `ObjectLock::Lock`.
```
ASSERT(!m_Locked && m_Object != NULL);
ASSERT(!m_Object->OwnsLock());
m_Object->m_Mutex.Lock();
m_Locked = true;
#ifdef _DEBUG
m_Object->m_Locked = true;
m_Object->m_LockOwner = boost::this_thread::get_id();
#endif
```
`ASSERT` is modelled from the spec (the macro is not among the sources): it is
checked in debug builds, where a failure halts the program, and compiled out
otherwise. -/
def Lock (debug : Bool) (caller : ThreadId) (h : Heap) (g : ObjectLock) :
    Outcome (Heap × ObjectLock) :=
  if debug && !(!g.m_Locked && g.m_Object.isSome) then .assertFailed (h, g)
  else
    match g.m_Object with
    | none => .undefinedBehaviour
    | some p =>
      if debug && (h p).OwnsLock caller then .assertFailed (h, g)
      else if (h p).m_Mutex.held then .blocked (h, g)
      else
        let h1 := h.store p { h p with m_Mutex := (h p).m_Mutex.Lock }
        let g1 := { g with m_Locked := true }
        let h2 :=
          if debug then
            h1.store p { h1 p with m_Locked := true, m_LockOwner := some caller }
          else h1
        .done (h2, g1)

/-- `ObjectLock::Unlock`.
```
#ifdef _DEBUG
if (m_Locked) m_Object->m_Locked = false;
#endif
if (m_Locked) { m_Object->m_Mutex.Unlock(); m_Locked = false; }
```
-/
def Unlock (debug : Bool) (h : Heap) (g : ObjectLock) : Outcome (Heap × ObjectLock) :=
  if g.m_Locked then
    match g.m_Object with
    | none => .undefinedBehaviour
    | some p =>
      let h1 := if debug then h.store p { h p with m_Locked := false } else h
      let h2 := h1.store p { h1 p with m_Mutex := (h1 p).m_Mutex.Unlock }
      .done (h2, { g with m_Locked := false })
  else .done (h, g)

/-- `ObjectLock::ObjectLock(void) : m_Object(NULL), m_Locked(false) { }`. -/
def ctorDefault (h : Heap) : Outcome (Heap × ObjectLock) :=
  .done (h, { m_Object := none, m_Locked := false })

/-- `ObjectLock::ObjectLock(const Object *object)`:
`m_Object(object), m_Locked(false)`, then `if (m_Object) Lock();`. -/
def ctorRaw (debug : Bool) (caller : ThreadId) (h : Heap) (object : Option ObjId) :
    Outcome (Heap × ObjectLock) :=
  let g : ObjectLock := { m_Object := object, m_Locked := false }
  if g.m_Object.isSome then Lock debug caller h g else .done (h, g)

/-- `Object::Ptr::get()`: the raw pointer inside the smart pointer. -/
def ptrGet (object : Option ObjId) : Option ObjId := object

/-- `ObjectLock::ObjectLock(const Object::Ptr& object)`:
`m_Object(object.get()), m_Locked(false)`, then `if (m_Object) Lock();`. -/
def ctorPtr (debug : Bool) (caller : ThreadId) (h : Heap) (object : Option ObjId) :
    Outcome (Heap × ObjectLock) :=
  let g : ObjectLock := { m_Object := ptrGet object, m_Locked := false }
  if g.m_Object.isSome then Lock debug caller h g else .done (h, g)

/-- The copy constructor of `struct ObjectLock`. The struct declares none and
deletes none, so the compiler provides the memberwise one: the new guard gets
`m_Object` and `m_Locked` of `other`; no mutex is touched. -/
def ctorCopy (h : Heap) (other : ObjectLock) : Outcome (Heap × ObjectLock) :=
  .done (h, { m_Object := other.m_Object, m_Locked := other.m_Locked })

/-- `ObjectLock::~ObjectLock(void) { Unlock(); }`. The guard in the result is
the state of the members when the object dies. -/
def dtor (debug : Bool) (h : Heap) (g : ObjectLock) : Outcome (Heap × ObjectLock) :=
  Unlock debug h g

end ObjectLock

/-! ## A program of several threads, guards and entities -/

/-- The shared state of a running program: the heap of entities and the live
guards, each in its own storage slot (`none` is a slot without a live guard). -/
structure Program where
  heap : Heap
  guards : Nat → Option ObjectLock

/-- One call made by some thread on the guard in a slot. -/
inductive Action where
  | newDefault (slot : Nat)
  | newPtr (slot : Nat) (caller : ThreadId) (object : Option ObjId)
  | newRaw (slot : Nat) (caller : ThreadId) (object : Option ObjId)
  | newCopy (slot : Nat) (source : Nat)
  | lock (slot : Nat) (caller : ThreadId)
  | unlock (slot : Nat)
  | delete (slot : Nat)
  deriving DecidableEq, Repr

/-- Whether the call is a copy construction, as opposed to a call of one of the
member functions that `objectlock.hpp` writes out. -/
def Action.isCopy : Action → Bool
  | .newCopy _ _ => true
  | _ => false

/-- Storing a guard (or the absence of one) in a slot. -/
def Program.setGuard (s : Program) (h : Heap) (slot : Nat) (g : Option ObjectLock) : Program :=
  { heap := h, guards := fun i => if i = slot then g else s.guards i }

/-- The state after a call that returned. A call gives no new state when it
does not return (failed assertion, wait on a held mutex, undefined behaviour),
when it constructs a guard in a slot that already has a live one, or when it
addresses (or copies from) a slot without a live guard. -/
def Program.step (debug : Bool) (s : Program) : Action → Option Program
  | .newDefault slot =>
    match s.guards slot, ObjectLock.ctorDefault s.heap with
    | none, .done (h, g) => some (s.setGuard h slot (some g))
    | _, _ => none
  | .newPtr slot caller object =>
    match s.guards slot, ObjectLock.ctorPtr debug caller s.heap object with
    | none, .done (h, g) => some (s.setGuard h slot (some g))
    | _, _ => none
  | .newRaw slot caller object =>
    match s.guards slot, ObjectLock.ctorRaw debug caller s.heap object with
    | none, .done (h, g) => some (s.setGuard h slot (some g))
    | _, _ => none
  | .newCopy slot source =>
    match s.guards slot, s.guards source with
    | none, some other =>
      match ObjectLock.ctorCopy s.heap other with
      | .done (h, g) => some (s.setGuard h slot (some g))
      | _ => none
    | _, _ => none
  | .lock slot caller =>
    match s.guards slot with
    | some g0 =>
      match ObjectLock.Lock debug caller s.heap g0 with
      | .done (h, g) => some (s.setGuard h slot (some g))
      | _ => none
    | none => none
  | .unlock slot =>
    match s.guards slot with
    | some g0 =>
      match ObjectLock.Unlock debug s.heap g0 with
      | .done (h, g) => some (s.setGuard h slot (some g))
      | _ => none
    | none => none
  | .delete slot =>
    match s.guards slot with
    | some g0 =>
      match ObjectLock.dtor debug s.heap g0 with
      | .done (h, _) => some (s.setGuard h slot none)
      | _ => none
    | none => none

/-- The state after a sequence of calls that all returned. -/
def Program.run (debug : Bool) (s : Program) : List Action → Option Program
  | [] => some s
  | a :: rest =>
    match s.step debug a with
    | some s1 => s1.run debug rest
    | none => none

/-- The guard in `slot` is bound to the entity at `p` and has `m_Locked` set. -/
def Program.holds (s : Program) (slot : Nat) (p : ObjId) : Prop :=
  s.guards slot = some { m_Object := some p, m_Locked := true }

/-- Mutual exclusion: no entity has two guards holding it, and the mutex of an
entity is held exactly when some guard holds the entity. -/
def Program.MutualExclusion (s : Program) : Prop :=
  (∀ p i j, s.holds i p → s.holds j p → i = j) ∧
  (∀ p, (s.heap p).m_Mutex.held = true ↔ ∃ i, s.holds i p)

/-- A heap in which nobody has locked anything yet: every mutex is free and has
never been used, no entity is flagged locked and none has an owner. -/
def Heap.fresh : Heap :=
  fun _ => { m_Mutex := { held := false, locks := 0, unlocks := 0 },
             m_Locked := false, m_LockOwner := none }

/-- The guard states a program can see: the result of a constructor that
returned, a copy of a guard included, followed by `Lock` and `Unlock` calls that
returned. Between two calls
other threads may have changed the heap in any way, so each call meets a heap
of its own. -/
inductive ObjectLock.Reachable (debug : Bool) : ObjectLock → Prop where
  | ofDefault (h h1 : Heap) (g : ObjectLock) :
      ObjectLock.ctorDefault h = .done (h1, g) → ObjectLock.Reachable debug g
  | ofPtr (caller : ThreadId) (object : Option ObjId) (h h1 : Heap) (g : ObjectLock) :
      ObjectLock.ctorPtr debug caller h object = .done (h1, g) →
      ObjectLock.Reachable debug g
  | ofRaw (caller : ThreadId) (object : Option ObjId) (h h1 : Heap) (g : ObjectLock) :
      ObjectLock.ctorRaw debug caller h object = .done (h1, g) →
      ObjectLock.Reachable debug g
  | ofCopy (h h1 : Heap) (g0 g : ObjectLock) :
      ObjectLock.Reachable debug g0 →
      ObjectLock.ctorCopy h g0 = .done (h1, g) → ObjectLock.Reachable debug g
  | afterLock (caller : ThreadId) (h h1 : Heap) (g0 g : ObjectLock) :
      ObjectLock.Reachable debug g0 →
      ObjectLock.Lock debug caller h g0 = .done (h1, g) → ObjectLock.Reachable debug g
  | afterUnlock (h h1 : Heap) (g0 g : ObjectLock) :
      ObjectLock.Reachable debug g0 →
      ObjectLock.Unlock debug h g0 = .done (h1, g) → ObjectLock.Reachable debug g

/-- The heap in which thread `owner` holds the entity at address 0 through a
guard, in a debug build: what `ctorRaw true owner Heap.fresh (some 0)` leaves
behind. -/
def Heap.heldBy (owner : ThreadId) : Heap :=
  Heap.fresh.store 0
    { m_Mutex := { held := true, locks := 1, unlocks := 0 },
      m_Locked := true, m_LockOwner := some owner }

/-- `struct SumAggregatorState { double Sum{0}; }`. The accumulator is a
rational number: sums are exact, rounding of `double` is not modelled. -/
structure SumAggregatorState where
  Sum : ℚ := 0
  deriving DecidableEq

/-- Modelled from the spec: the value of a column in a row (`Value` of
`base/value.hpp`, not among the sources): absent, numeric, or something that is
not a number. -/
inductive Value where
  | empty
  | number (v : ℚ)
  | text (s : String)
  deriving DecidableEq

/-- Modelled from the spec: the value coercion policy of section 4.3. A numeric
value is itself; an absent or non-numeric value contributes as 0. -/
def Value.toDouble : Value → ℚ
  | .number v => v
  | .empty => 0
  | .text _ => 0

/-- Modelled from the spec: the Row Source of section 4.2 (`livestatus/table.hpp`
is not among the sources), reduced to its column accessor
`GetValue(row, columnName)`. -/
structure Table (ρ : Type) where
  GetValue : ρ → String → Value

/-- `class SumAggregator`: its one data member. -/
structure SumAggregator where
  m_SumAttr : String
  deriving DecidableEq

namespace SumAggregator

/-- Modelled from the spec: `SumAggregator::EnsureState` (declared in
`sumaggregator.hpp`, defined in `sumaggregator.cpp`, which is not among the
sources). If the slot is empty a fresh, seed-initialized accumulator is
allocated and stored through the slot; the accumulator of the slot is
returned. The seed is the member initializer of `SumAggregatorState`. -/
def EnsureState (state : Option SumAggregatorState) : SumAggregatorState :=
  match state with
  | some pstate => pstate
  | none => {}

/-- Modelled from the spec: `SumAggregator::Apply` (defined in
`sumaggregator.cpp`, not among the sources): read the configured attribute of
the row, make sure the slot has an accumulator, and fold the value into it with
the combine rule of Sum, `acc + value`. The result is the slot afterwards. -/
def Apply {ρ : Type} (self : SumAggregator) (table : Table ρ) (row : ρ)
    (state : Option SumAggregatorState) : Option SumAggregatorState :=
  let value := table.GetValue row self.m_SumAttr
  let pstate := EnsureState state
  some { pstate with Sum := pstate.Sum + value.toDouble }

/-- Modelled from the spec: `SumAggregator::GetResultAndFreeState` (defined in
`sumaggregator.cpp`, not among the sources): read the finalized scalar, which
for Sum is the accumulator itself, and release the accumulator. A slot that no
`Apply` ever filled finalizes to the seed-derived result. The second component
is the slot afterwards. -/
def GetResultAndFreeState (_self : SumAggregator) (state : Option SumAggregatorState) :
    ℚ × Option SumAggregatorState :=
  let pstate := EnsureState state
  (pstate.Sum, none)

/-- One pass of the Query Executor over the rows of a single group: `Apply` for
every row in order, starting from an empty slot, then `GetResultAndFreeState`
once. -/
def runGroup {ρ : Type} (self : SumAggregator) (table : Table ρ) (rows : List ρ) : ℚ :=
  (self.GetResultAndFreeState
    (rows.foldl (fun state row => self.Apply table row state) none)).1

end SumAggregator

/-- Modelled from the spec: a row as the end-to-end scenarios of section 8 give
it, a list of attribute names with their values. -/
abbrev Row := List (String × Value)

/-- Modelled from the spec: column access on such a row; an attribute the row
does not have is an absent value. -/
def Row.GetValue (row : Row) (column : String) : Value :=
  match row.lookup column with
  | some v => v
  | none => .empty

/-- The row source over such rows. -/
def Row.table : Table Row :=
  { GetValue := Row.GetValue }

/-- The row source of the end-to-end scenario: three rows whose attribute "a" is
10, 0 and -5. -/
def Row.scenario : List Row :=
  [[("a", .number 10)], [("a", .number 0)], [("a", .number (-5))]]

/-! ## Basic facts about the heap -/

@[simp] theorem Heap.store_same (h : Heap) (p : ObjId) (o : Object) :
    (h.store p o) p = o := by
  simp [Heap.store]

@[simp] theorem Heap.store_other (h : Heap) (p q : ObjId) (o : Object) (hq : q ≠ p) :
    (h.store p o) q = h q := by
  simp [Heap.store, hq]

/-- The heap `Heap.heldBy owner` is the one a debug build reaches when thread
`owner` constructs a guard on the entity at address 0 of the fresh heap. -/
theorem Heap.heldBy_eq (owner : ThreadId) :
    ObjectLock.ctorRaw true owner Heap.fresh (some 0)
      = .done (Heap.heldBy owner, { m_Object := some 0, m_Locked := true }) := by
  have hheap : (Heap.fresh.store 0
        { Heap.fresh 0 with m_Mutex := (Heap.fresh 0).m_Mutex.Lock }).store 0
        { m_Mutex := (Heap.fresh 0).m_Mutex.Lock, m_Locked := true,
          m_LockOwner := some owner } = Heap.heldBy owner := by
    funext q
    by_cases hq : q = 0 <;> simp [Heap.heldBy, Heap.store, hq, Heap.fresh, Mutex.Lock]
  rw [← hheap]
  rfl

/-! ## The scoped lock: construction, release, rejection -/

/-- C1. For every non-null entity whose mutex is free and whose lock the calling
thread does not own, both pointer constructors return with the guard bound to
the entity and `m_Locked` true. In the heap afterwards the mutex of the entity
is held and has been locked exactly once more than before (and not unlocked),
and no other entity has changed. -/
theorem ObjectLock.ctor_acquires (debug : Bool) (caller : ThreadId) (h : Heap) (p : ObjId)
    (hfree : (h p).m_Mutex.held = false) (hown : (h p).OwnsLock caller = false) :
    ∃ h1 : Heap,
      ObjectLock.ctorPtr debug caller h (some p)
        = .done (h1, { m_Object := some p, m_Locked := true }) ∧
      ObjectLock.ctorRaw debug caller h (some p)
        = .done (h1, { m_Object := some p, m_Locked := true }) ∧
      (h1 p).m_Mutex.held = true ∧
      (h1 p).m_Mutex.locks = (h p).m_Mutex.locks + 1 ∧
      (h1 p).m_Mutex.unlocks = (h p).m_Mutex.unlocks ∧
      ∀ q, q ≠ p → h1 q = h q := by
  cases debug
  · refine ⟨h.store p { h p with m_Mutex := (h p).m_Mutex.Lock }, ?_, ?_, ?_, ?_, ?_, ?_⟩
    · simp [ObjectLock.ctorPtr, ObjectLock.ptrGet, ObjectLock.Lock, hfree]
    · simp [ObjectLock.ctorRaw, ObjectLock.Lock, hfree]
    · simp [Mutex.Lock]
    · simp [Mutex.Lock]
    · simp [Mutex.Lock]
    · intro q hq; simp [hq]
  · refine ⟨(h.store p { h p with m_Mutex := (h p).m_Mutex.Lock }).store p
        { m_Mutex := (h p).m_Mutex.Lock, m_Locked := true, m_LockOwner := some caller },
      ?_, ?_, ?_, ?_, ?_, ?_⟩
    · simp [ObjectLock.ctorPtr, ObjectLock.ptrGet, ObjectLock.Lock, hfree, hown]
    · simp [ObjectLock.ctorRaw, ObjectLock.Lock, hfree, hown]
    · simp [Mutex.Lock]
    · simp [Mutex.Lock]
    · simp [Mutex.Lock]
    · intro q hq; simp [hq]

/-- C1 at a concrete input: thread 1 constructs a guard on the entity at address
0 of the fresh heap, in a debug build. -/
theorem ObjectLock.ctor_acquires_witness :
    (Heap.fresh 0).m_Mutex.held = false ∧ (Heap.fresh 0).OwnsLock 1 = false ∧
    ∃ h1 : Heap,
      ObjectLock.ctorPtr true 1 Heap.fresh (some 0)
        = .done (h1, { m_Object := some 0, m_Locked := true }) ∧
      ObjectLock.ctorRaw true 1 Heap.fresh (some 0)
        = .done (h1, { m_Object := some 0, m_Locked := true }) ∧
      (h1 0).m_Mutex.held = true ∧
      (h1 0).m_Mutex.locks = (Heap.fresh 0).m_Mutex.locks + 1 ∧
      (h1 0).m_Mutex.unlocks = (Heap.fresh 0).m_Mutex.unlocks ∧
      ∀ q, q ≠ 0 → h1 q = Heap.fresh q :=
  ⟨rfl, rfl, ObjectLock.ctor_acquires true 1 Heap.fresh 0 rfl rfl⟩

/-- C2. The default constructor and both pointer constructors given `NULL`
return the guard `(NULL, false)` and leave the heap as it was, so no mutex is
locked. `Unlock` on that guard and its destruction return with the heap and the
guard unchanged, so no mutex is unlocked. -/
theorem ObjectLock.null_guard_inert (debug : Bool) (caller : ThreadId) (h : Heap) :
    ObjectLock.ctorDefault h = .done (h, { m_Object := none, m_Locked := false }) ∧
    ObjectLock.ctorPtr debug caller h none
      = .done (h, { m_Object := none, m_Locked := false }) ∧
    ObjectLock.ctorRaw debug caller h none
      = .done (h, { m_Object := none, m_Locked := false }) ∧
    ObjectLock.Unlock debug h { m_Object := none, m_Locked := false }
      = .done (h, { m_Object := none, m_Locked := false }) ∧
    ObjectLock.dtor debug h { m_Object := none, m_Locked := false }
      = .done (h, { m_Object := none, m_Locked := false }) := by
  simp [ObjectLock.ctorDefault, ObjectLock.ctorPtr, ObjectLock.ctorRaw, ObjectLock.ptrGet,
    ObjectLock.Unlock, ObjectLock.dtor]

/-- C3. `Unlock` is idempotent: from every heap and guard state, `Unlock` followed
by `Unlock`, or followed by the destructor, ends exactly as a single `Unlock`
does. If the guard holds the lock of the entity at `p`, the two calls return
with the mutex of `p` free and unlocked exactly once more than before; nothing
else about any mutex changes. If the guard has `m_Locked` false the two calls
return with the heap and the guard unchanged: nothing is unlocked. -/
theorem ObjectLock.unlock_idempotent (debug : Bool) (h : Heap) (g : ObjectLock) :
    (ObjectLock.Unlock debug h g).andThen (fun s => ObjectLock.Unlock debug s.1 s.2)
      = ObjectLock.Unlock debug h g ∧
    (ObjectLock.Unlock debug h g).andThen (fun s => ObjectLock.dtor debug s.1 s.2)
      = ObjectLock.Unlock debug h g ∧
    (∀ p, g = { m_Object := some p, m_Locked := true } →
      ∃ h1 : Heap,
        (ObjectLock.Unlock debug h g).andThen (fun s => ObjectLock.Unlock debug s.1 s.2)
          = .done (h1, { m_Object := some p, m_Locked := false }) ∧
        (h1 p).m_Mutex.held = false ∧
        (h1 p).m_Mutex.unlocks = (h p).m_Mutex.unlocks + 1 ∧
        (h1 p).m_Mutex.locks = (h p).m_Mutex.locks ∧
        ∀ q, q ≠ p → h1 q = h q) ∧
    (g.m_Locked = false →
      (ObjectLock.Unlock debug h g).andThen (fun s => ObjectLock.Unlock debug s.1 s.2)
        = .done (h, g)) := by
  obtain ⟨o, l⟩ := g
  cases l
  · simp [ObjectLock.Unlock, ObjectLock.dtor, Outcome.andThen]
  · cases o with
    | none => simp [ObjectLock.Unlock, ObjectLock.dtor, Outcome.andThen]
    | some p =>
      refine ⟨?_, ?_, ?_, ?_⟩
      · simp [ObjectLock.Unlock, Outcome.andThen]
      · simp [ObjectLock.Unlock, ObjectLock.dtor, Outcome.andThen]
      · intro p1 hp
        have hpp : p = p1 := by simpa using hp
        subst hpp
        cases debug
        · refine ⟨_, by simp [ObjectLock.Unlock, Outcome.andThen]; rfl, ?_, ?_, ?_, ?_⟩
          · simp [Mutex.Unlock]
          · simp [Mutex.Unlock]
          · simp [Mutex.Unlock]
          · intro q hq; simp [hq]
        · refine ⟨_, by simp [ObjectLock.Unlock, Outcome.andThen]; rfl, ?_, ?_, ?_, ?_⟩
          · simp [Mutex.Unlock]
          · simp [Mutex.Unlock]
          · simp [Mutex.Unlock]
          · intro q hq; simp [hq]
      · intro hl; simp at hl

/-- C3 at a concrete input: the guard of thread 7 on the entity at address 0 is
unlocked twice in a debug build. -/
theorem ObjectLock.unlock_idempotent_witness :
    (ObjectLock.Unlock true (Heap.heldBy 7) { m_Object := some 0, m_Locked := true }).andThen
        (fun s => ObjectLock.Unlock true s.1 s.2)
      = ObjectLock.Unlock true (Heap.heldBy 7) { m_Object := some 0, m_Locked := true } ∧
    ∃ h1 : Heap,
      (ObjectLock.Unlock true (Heap.heldBy 7) { m_Object := some 0, m_Locked := true }).andThen
          (fun s => ObjectLock.Unlock true s.1 s.2)
        = .done (h1, { m_Object := some 0, m_Locked := false }) ∧
      (h1 0).m_Mutex.held = false ∧
      (h1 0).m_Mutex.unlocks = ((Heap.heldBy 7) 0).m_Mutex.unlocks + 1 ∧
      (h1 0).m_Mutex.locks = ((Heap.heldBy 7) 0).m_Mutex.locks ∧
      ∀ q, q ≠ 0 → h1 q = (Heap.heldBy 7) q :=
  ⟨(ObjectLock.unlock_idempotent true (Heap.heldBy 7) _).1,
   (ObjectLock.unlock_idempotent true (Heap.heldBy 7) _).2.2.1 0 rfl⟩

/-- C4. In a debug build, `Lock` on a guard that is bound to the entity at `p`
and not yet locked fails an assertion if and only if the entity reports
`OwnsLock()` for the calling thread, and the same holds for the construction
of a guard on `p` by either pointer constructor. The program halts in the
state in which the call found the heap and the guard: the mutex is not locked
again and no bookkeeping has changed. -/
theorem ObjectLock.lock_rejects_reentrant (caller : ThreadId) (h : Heap) (g : ObjectLock)
    (p : ObjId) (hbound : g.m_Object = some p) (hunlocked : g.m_Locked = false) :
    ((∃ s, ObjectLock.Lock true caller h g = .assertFailed s)
      ↔ (h p).OwnsLock caller = true) ∧
    (∀ s, ObjectLock.Lock true caller h g = .assertFailed s → s = (h, g)) ∧
    ((∃ s, ObjectLock.ctorRaw true caller h (some p) = .assertFailed s)
      ↔ (h p).OwnsLock caller = true) ∧
    (∀ s, ObjectLock.ctorRaw true caller h (some p) = .assertFailed s
      → s = (h, { m_Object := some p, m_Locked := false })) ∧
    ((∃ s, ObjectLock.ctorPtr true caller h (some p) = .assertFailed s)
      ↔ (h p).OwnsLock caller = true) ∧
    (∀ s, ObjectLock.ctorPtr true caller h (some p) = .assertFailed s
      → s = (h, { m_Object := some p, m_Locked := false })) := by
  obtain ⟨o, l⟩ := g
  simp only at hbound hunlocked
  subst hbound hunlocked
  by_cases hown : (h p).OwnsLock caller = true
  · simp [ObjectLock.Lock, ObjectLock.ctorRaw, ObjectLock.ctorPtr, ObjectLock.ptrGet, hown]
  · by_cases hheld : (h p).m_Mutex.held = true
    · simp [ObjectLock.Lock, ObjectLock.ctorRaw, ObjectLock.ctorPtr, ObjectLock.ptrGet,
        hown, hheld]
    · simp [ObjectLock.Lock, ObjectLock.ctorRaw, ObjectLock.ctorPtr, ObjectLock.ptrGet,
        hown, hheld]

/-- C4 at a concrete input: thread 7 holds the entity at address 0 and calls
`Lock` on a second guard bound to it; the assertion fails and nothing changes. -/
theorem ObjectLock.lock_rejects_reentrant_witness :
    ((Heap.heldBy 7) 0).OwnsLock 7 = true ∧
    ObjectLock.Lock true 7 (Heap.heldBy 7) { m_Object := some 0, m_Locked := false }
      = .assertFailed (Heap.heldBy 7, { m_Object := some 0, m_Locked := false }) ∧
    ((∃ s, ObjectLock.Lock true 7 (Heap.heldBy 7) { m_Object := some 0, m_Locked := false }
        = .assertFailed s)
      ↔ ((Heap.heldBy 7) 0).OwnsLock 7 = true) :=
  ⟨rfl, rfl,
   (ObjectLock.lock_rejects_reentrant 7 (Heap.heldBy 7)
      { m_Object := some 0, m_Locked := false } 0 rfl rfl).1⟩

/-- C5, as stated, fails. In a debug build thread 7 constructs a guard on the
entity at address 0 of the fresh heap and then unlocks it. `Unlock` clears the
"locked" flag of the entity, but the owning-thread identity is still thread 7:
it has not been cleared. -/
theorem ObjectLock.unlock_keeps_owner_counterexample :
    ∃ h1 h2 : Heap,
      ObjectLock.ctorRaw true 7 Heap.fresh (some 0)
        = .done (h1, { m_Object := some 0, m_Locked := true }) ∧
      (h1 0).m_LockOwner = some 7 ∧
      ObjectLock.Unlock true h1 { m_Object := some 0, m_Locked := true }
        = .done (h2, { m_Object := some 0, m_Locked := false }) ∧
      (h2 0).m_Locked = false ∧
      (h2 0).m_LockOwner = some 7 ∧
      (h2 0).m_LockOwner ≠ (Heap.fresh 0).m_LockOwner :=
  ⟨_, _, rfl, rfl, rfl, rfl, rfl, by decide⟩

/-- C5, amended. In a debug build a `Lock` that completes (the mutex of the
entity is free and the caller does not own the lock) sets the "locked" flag of
the entity and records the calling thread as owner; `Unlock` of a guard that
holds the lock clears the "locked" flag and leaves the owning-thread identity
as it was. In a non-debug build `Lock` completes whenever the mutex is free, and
no call of `Lock` or `Unlock` that returns changes either field of any
entity. -/
theorem ObjectLock.debug_bookkeeping :
    (∀ (caller : ThreadId) (h : Heap) (p : ObjId),
      (h p).m_Mutex.held = false → (h p).OwnsLock caller = false →
      ∃ h1 : Heap,
        ObjectLock.Lock true caller h { m_Object := some p, m_Locked := false }
          = .done (h1, { m_Object := some p, m_Locked := true }) ∧
        (h1 p).m_Locked = true ∧ (h1 p).m_LockOwner = some caller) ∧
    (∀ (h : Heap) (p : ObjId),
      ∃ h1 : Heap,
        ObjectLock.Unlock true h { m_Object := some p, m_Locked := true }
          = .done (h1, { m_Object := some p, m_Locked := false }) ∧
        (h1 p).m_Locked = false ∧ (h1 p).m_LockOwner = (h p).m_LockOwner) ∧
    (∀ (caller : ThreadId) (h : Heap) (p : ObjId),
      (h p).m_Mutex.held = false →
      ∃ h1 : Heap,
        ObjectLock.Lock false caller h { m_Object := some p, m_Locked := false }
          = .done (h1, { m_Object := some p, m_Locked := true })) ∧
    (∀ (caller : ThreadId) (h h1 : Heap) (g g1 : ObjectLock),
      ObjectLock.Lock false caller h g = .done (h1, g1) →
      ∀ q, (h1 q).m_Locked = (h q).m_Locked ∧ (h1 q).m_LockOwner = (h q).m_LockOwner) ∧
    (∀ (h h1 : Heap) (g g1 : ObjectLock),
      ObjectLock.Unlock false h g = .done (h1, g1) →
      ∀ q, (h1 q).m_Locked = (h q).m_Locked ∧ (h1 q).m_LockOwner = (h q).m_LockOwner) := by
  refine ⟨?_, ?_, ?_, ?_, ?_⟩
  · intro caller h p hfree hown
    exact ⟨_, by simp [ObjectLock.Lock, hfree, hown]; rfl, by simp, by simp⟩
  · intro h p
    exact ⟨_, by simp [ObjectLock.Unlock]; rfl, by simp, by simp⟩
  · intro caller h p hfree
    exact ⟨_, by simp [ObjectLock.Lock, hfree]; rfl⟩
  · intro caller h h1 g g1 hL q
    obtain ⟨o, l⟩ := g
    cases o with
    | none => simp [ObjectLock.Lock] at hL
    | some p =>
      by_cases hheld : (h p).m_Mutex.held = true
      · simp [ObjectLock.Lock, hheld] at hL
      · simp [ObjectLock.Lock, hheld] at hL
        obtain ⟨hh, -⟩ := hL
        subst hh
        by_cases hq : q = p
        · subst hq; simp
        · simp [hq]
  · intro h h1 g g1 hU q
    obtain ⟨o, l⟩ := g
    cases l
    · simp [ObjectLock.Unlock] at hU
      obtain ⟨hh, -⟩ := hU
      subst hh
      exact ⟨rfl, rfl⟩
    · cases o with
      | none => simp [ObjectLock.Unlock] at hU
      | some p =>
        simp [ObjectLock.Unlock] at hU
        obtain ⟨hh, -⟩ := hU
        subst hh
        by_cases hq : q = p
        · subst hq; simp
        · simp [hq]

/-- C5, amended, at a concrete input: thread 7 locks and unlocks the entity at
address 0 of the fresh heap in a debug build. -/
theorem ObjectLock.debug_bookkeeping_witness :
    (∃ h1 : Heap,
      ObjectLock.Lock true 7 Heap.fresh { m_Object := some 0, m_Locked := false }
        = .done (h1, { m_Object := some 0, m_Locked := true }) ∧
      (h1 0).m_Locked = true ∧ (h1 0).m_LockOwner = some 7) ∧
    (∃ h1 : Heap,
      ObjectLock.Unlock true (Heap.heldBy 7) { m_Object := some 0, m_Locked := true }
        = .done (h1, { m_Object := some 0, m_Locked := false }) ∧
      (h1 0).m_Locked = false ∧ (h1 0).m_LockOwner = ((Heap.heldBy 7) 0).m_LockOwner) :=
  ⟨ObjectLock.debug_bookkeeping.1 7 Heap.fresh 0 rfl rfl,
   ObjectLock.debug_bookkeeping.2.1 (Heap.heldBy 7) 0⟩

/-- C6, as stated, fails. The guard that `ctorRaw` builds from `NULL` is
`(NULL, false)`; calling `Lock` on it in a debug build does not return: the
first assertion of `Lock` fails. In a non-debug build the call dereferences
`NULL`. -/
theorem ObjectLock.lock_on_null_guard_counterexample :
    ObjectLock.ctorRaw true 1 Heap.fresh none
      = .done (Heap.fresh, { m_Object := none, m_Locked := false }) ∧
    ObjectLock.Lock true 1 Heap.fresh { m_Object := none, m_Locked := false }
      = .assertFailed (Heap.fresh, { m_Object := none, m_Locked := false }) ∧
    ObjectLock.Lock true 1 Heap.fresh { m_Object := none, m_Locked := false }
      ≠ .done (Heap.fresh, { m_Object := none, m_Locked := false }) ∧
    ObjectLock.Lock false 1 Heap.fresh { m_Object := none, m_Locked := false }
      = .undefinedBehaviour :=
  ⟨rfl, rfl, by simp [ObjectLock.Lock], rfl⟩

/-- C6, amended. For a guard constructed with a null entity, `Unlock` and the
destructor return with the heap and the guard unchanged. `Lock` on such a guard
never returns normally: in a debug build its first assertion fails, with
nothing acquired and the heap and the guard unchanged; in a non-debug build it
dereferences `NULL`. -/
theorem ObjectLock.null_guard_later_calls (debug : Bool) (caller : ThreadId) (h : Heap) :
    ObjectLock.ctorRaw debug caller h none
      = .done (h, { m_Object := none, m_Locked := false }) ∧
    ObjectLock.ctorPtr debug caller h none
      = .done (h, { m_Object := none, m_Locked := false }) ∧
    ObjectLock.Unlock debug h { m_Object := none, m_Locked := false }
      = .done (h, { m_Object := none, m_Locked := false }) ∧
    ObjectLock.dtor debug h { m_Object := none, m_Locked := false }
      = .done (h, { m_Object := none, m_Locked := false }) ∧
    ObjectLock.Lock true caller h { m_Object := none, m_Locked := false }
      = .assertFailed (h, { m_Object := none, m_Locked := false }) ∧
    ObjectLock.Lock false caller h { m_Object := none, m_Locked := false }
      = .undefinedBehaviour ∧
    ∀ s, ObjectLock.Lock debug caller h { m_Object := none, m_Locked := false } ≠ .done s := by
  cases debug <;>
    simp [ObjectLock.ctorRaw, ObjectLock.ctorPtr, ObjectLock.ptrGet, ObjectLock.Unlock,
      ObjectLock.dtor, ObjectLock.Lock]

/-! ## Mutual exclusion over all guards and entities -/

/-- What a `Lock` that returned has done: the guard was bound to some entity
whose mutex was free; now the guard holds it, the mutex is held, and no other
entity has changed. -/
theorem ObjectLock.Lock_done {debug : Bool} {caller : ThreadId} {h h1 : Heap}
    {g g1 : ObjectLock} (hL : ObjectLock.Lock debug caller h g = .done (h1, g1)) :
    ∃ p, g.m_Object = some p ∧ (h p).m_Mutex.held = false ∧
      g1 = { m_Object := some p, m_Locked := true } ∧
      (h1 p).m_Mutex.held = true ∧ ∀ q, q ≠ p → h1 q = h q := by
  obtain ⟨o, l⟩ := g
  cases o with
  | none => cases debug <;> simp [ObjectLock.Lock] at hL
  | some p =>
    refine ⟨p, rfl, ?_⟩
    by_cases hheld : (h p).m_Mutex.held = true
    · cases debug <;> cases l <;> simp [ObjectLock.Lock, hheld] at hL
      split at hL <;> simp at hL
    · have hfree : (h p).m_Mutex.held = false := by simpa using hheld
      refine ⟨hfree, ?_⟩
      cases debug
      · simp [ObjectLock.Lock, hfree] at hL
        obtain ⟨hh, hg⟩ := hL
        subst hh hg
        refine ⟨rfl, by simp [Mutex.Lock], ?_⟩
        intro q hq; simp [hq]
      · cases l
        · by_cases hown : (h p).OwnsLock caller = true
          · simp [ObjectLock.Lock, hfree, hown] at hL
          · simp [ObjectLock.Lock, hfree, hown] at hL
            obtain ⟨hh, hg⟩ := hL
            subst hh hg
            refine ⟨rfl, by simp [Mutex.Lock], ?_⟩
            intro q hq; simp [hq]
        · simp [ObjectLock.Lock] at hL

/-- What an `Unlock` that returned has done: either the guard held nothing and
nothing changed, or it held an entity whose mutex is now free, no other entity
having changed. -/
theorem ObjectLock.Unlock_done {debug : Bool} {h h1 : Heap} {g g1 : ObjectLock}
    (hU : ObjectLock.Unlock debug h g = .done (h1, g1)) :
    (g.m_Locked = false ∧ h1 = h ∧ g1 = g) ∨
    ∃ p, g = { m_Object := some p, m_Locked := true } ∧
      g1 = { m_Object := some p, m_Locked := false } ∧
      (h1 p).m_Mutex.held = false ∧ ∀ q, q ≠ p → h1 q = h q := by
  obtain ⟨o, l⟩ := g
  cases l
  · left
    simp [ObjectLock.Unlock] at hU
    exact ⟨rfl, hU.1.symm, hU.2.symm⟩
  · right
    cases o with
    | none => simp [ObjectLock.Unlock] at hU
    | some p =>
      refine ⟨p, rfl, ?_⟩
      cases debug
      · simp [ObjectLock.Unlock] at hU
        obtain ⟨hh, hg⟩ := hU
        subst hh hg
        refine ⟨rfl, by simp [Mutex.Unlock], ?_⟩
        intro q hq; simp [hq]
      · simp [ObjectLock.Unlock] at hU
        obtain ⟨hh, hg⟩ := hU
        subst hh hg
        refine ⟨rfl, by simp [Mutex.Unlock], ?_⟩
        intro q hq; simp [hq]

/-- What a pointer constructor that returned has done: given `NULL`, nothing;
given an entity, what `Lock` does. -/
theorem ObjectLock.ctorRaw_done {debug : Bool} {caller : ThreadId} {h h1 : Heap}
    {object : Option ObjId} {g1 : ObjectLock}
    (hC : ObjectLock.ctorRaw debug caller h object = .done (h1, g1)) :
    (h1 = h ∧ g1 = { m_Object := none, m_Locked := false }) ∨
    ∃ p, (h p).m_Mutex.held = false ∧
      g1 = { m_Object := some p, m_Locked := true } ∧
      (h1 p).m_Mutex.held = true ∧ ∀ q, q ≠ p → h1 q = h q := by
  cases object with
  | none =>
    left
    simp [ObjectLock.ctorRaw] at hC
    exact ⟨hC.1.symm, hC.2.symm⟩
  | some p =>
    right
    simp only [ObjectLock.ctorRaw, Option.isSome_some, if_true] at hC
    obtain ⟨p1, hp, hrest⟩ := ObjectLock.Lock_done hC
    exact ⟨p1, hrest⟩

theorem ObjectLock.ctorPtr_eq_ctorRaw (debug : Bool) (caller : ThreadId) (h : Heap)
    (object : Option ObjId) :
    ObjectLock.ctorPtr debug caller h object = ObjectLock.ctorRaw debug caller h object := rfl

/-- A guard that starts to hold a free entity keeps mutual exclusion. -/
theorem Program.MutualExclusion.acquire {s : Program} (hinv : s.MutualExclusion)
    (slot : Nat) (p : ObjId) (h1 : Heap)
    (hnot : ∀ q, ¬ s.holds slot q)
    (hfree : (s.heap p).m_Mutex.held = false)
    (hheld : (h1 p).m_Mutex.held = true)
    (hothers : ∀ q, q ≠ p → h1 q = s.heap q) :
    (s.setGuard h1 slot (some { m_Object := some p, m_Locked := true })).MutualExclusion := by
  obtain ⟨huniq, hiff⟩ := hinv
  have hnone : ∀ i, ¬ s.holds i p := by
    intro i hi
    have := (hiff p).2 ⟨i, hi⟩
    simp [hfree] at this
  constructor
  · intro q i j hi hj
    simp only [Program.holds, Program.setGuard] at hi hj
    by_cases hiq : i = slot <;> by_cases hjq : j = slot
    · rw [hiq, hjq]
    · simp only [hiq, if_true, hjq, if_false] at hi hj
      have hq : p = q := by simpa using hi
      subst hq
      exact absurd hj (hnone j)
    · simp only [hiq, if_true, hjq, if_false] at hi hj
      have hq : p = q := by simpa using hj
      subst hq
      exact absurd hi (hnone i)
    · simp only [hiq, hjq, if_false] at hi hj
      exact huniq q i j hi hj
  · intro q
    by_cases hq : q = p
    · subst hq
      constructor
      · intro _
        exact ⟨slot, by simp [Program.holds, Program.setGuard]⟩
      · intro _
        simpa [Program.setGuard] using hheld
    · constructor
      · intro hh
        have hh2 : (s.heap q).m_Mutex.held = true := by
          simpa [Program.setGuard, hothers q hq] using hh
        obtain ⟨i, hi⟩ := (hiff q).1 hh2
        have his : i ≠ slot := by
          intro e; subst e; exact hnot q hi
        exact ⟨i, by simpa [Program.holds, Program.setGuard, his] using hi⟩
      · rintro ⟨i, hi⟩
        simp only [Program.holds, Program.setGuard] at hi
        by_cases his : i = slot
        · simp only [his, if_true] at hi
          have : p = q := by simpa using hi
          exact absurd this.symm hq
        · simp only [his, if_false] at hi
          have := (hiff q).2 ⟨i, hi⟩
          simpa [Program.setGuard, hothers q hq] using this

/-- A guard that stops holding its entity, freeing the mutex, keeps mutual
exclusion. -/
theorem Program.MutualExclusion.release {s : Program} (hinv : s.MutualExclusion)
    (slot : Nat) (p : ObjId) (h1 : Heap) (g1 : Option ObjectLock)
    (hholds : s.holds slot p)
    (hfree : (h1 p).m_Mutex.held = false)
    (hothers : ∀ q, q ≠ p → h1 q = s.heap q)
    (hg1 : ∀ q, g1 ≠ some { m_Object := some q, m_Locked := true }) :
    (s.setGuard h1 slot g1).MutualExclusion := by
  obtain ⟨huniq, hiff⟩ := hinv
  constructor
  · intro q i j hi hj
    simp only [Program.holds, Program.setGuard] at hi hj
    by_cases hiq : i = slot
    · simp only [hiq, if_true] at hi
      exact absurd hi (hg1 q)
    · by_cases hjq : j = slot
      · simp only [hjq, if_true] at hj
        exact absurd hj (hg1 q)
      · simp only [hiq, hjq, if_false] at hi hj
        exact huniq q i j hi hj
  · intro q
    by_cases hq : q = p
    · subst hq
      constructor
      · intro hh
        have : (h1 q).m_Mutex.held = true := by simpa [Program.setGuard] using hh
        simp [hfree] at this
      · rintro ⟨i, hi⟩
        simp only [Program.holds, Program.setGuard] at hi
        by_cases his : i = slot
        · simp only [his, if_true] at hi
          exact absurd hi (hg1 q)
        · simp only [his, if_false] at hi
          exact absurd (huniq q i slot hi hholds) his
    · constructor
      · intro hh
        have hh2 : (s.heap q).m_Mutex.held = true := by
          simpa [Program.setGuard, hothers q hq] using hh
        obtain ⟨i, hi⟩ := (hiff q).1 hh2
        have his : i ≠ slot := by
          intro e
          subst e
          have h1 : s.guards i = some { m_Object := some q, m_Locked := true } := hi
          have h2 : s.guards i = some { m_Object := some p, m_Locked := true } := hholds
          rw [h1] at h2
          have : q = p := by simpa using h2
          exact hq this
        exact ⟨i, by simpa [Program.holds, Program.setGuard, his] using hi⟩
      · rintro ⟨i, hi⟩
        simp only [Program.holds, Program.setGuard] at hi
        by_cases his : i = slot
        · simp only [his, if_true] at hi
          exact absurd hi (hg1 q)
        · simp only [his, if_false] at hi
          have := (hiff q).2 ⟨i, hi⟩
          simpa [Program.setGuard, hothers q hq] using this

/-- Replacing a guard that holds nothing by one that holds nothing, the heap
staying as it is, keeps mutual exclusion. -/
theorem Program.MutualExclusion.neutral {s : Program} (hinv : s.MutualExclusion)
    (slot : Nat) (g1 : Option ObjectLock)
    (hnot : ∀ q, ¬ s.holds slot q)
    (hg1 : ∀ q, g1 ≠ some { m_Object := some q, m_Locked := true }) :
    (s.setGuard s.heap slot g1).MutualExclusion := by
  obtain ⟨huniq, hiff⟩ := hinv
  constructor
  · intro q i j hi hj
    simp only [Program.holds, Program.setGuard] at hi hj
    by_cases hiq : i = slot
    · simp only [hiq, if_true] at hi
      exact absurd hi (hg1 q)
    · by_cases hjq : j = slot
      · simp only [hjq, if_true] at hj
        exact absurd hj (hg1 q)
      · simp only [hiq, hjq, if_false] at hi hj
        exact huniq q i j hi hj
  · intro q
    constructor
    · intro hh
      obtain ⟨i, hi⟩ := (hiff q).1 (by simpa [Program.setGuard] using hh)
      have his : i ≠ slot := by
        intro e; subst e; exact hnot q hi
      exact ⟨i, by simpa [Program.holds, Program.setGuard, his] using hi⟩
    · rintro ⟨i, hi⟩
      simp only [Program.holds, Program.setGuard] at hi
      by_cases his : i = slot
      · simp only [his, if_true] at hi
        exact absurd hi (hg1 q)
      · simp only [his, if_false] at hi
        have := (hiff q).2 ⟨i, hi⟩
        simpa [Program.setGuard] using this

/-- A guard with `m_Locked` false holds nothing. -/
theorem Program.not_holds_of_unlocked {s : Program} {slot : Nat} {g : ObjectLock}
    (hg : s.guards slot = some g) (hl : g.m_Locked = false) : ∀ q, ¬ s.holds slot q := by
  intro q hq
  have h1 : s.guards slot = some { m_Object := some q, m_Locked := true } := hq
  rw [hg] at h1
  have : g = { m_Object := some q, m_Locked := true } := by simpa using h1
  rw [this] at hl
  simp at hl

/-- A slot without a live guard holds nothing. -/
theorem Program.not_holds_of_none {s : Program} {slot : Nat}
    (hg : s.guards slot = none) : ∀ q, ¬ s.holds slot q := by
  intro q hq
  have h1 : s.guards slot = some { m_Object := some q, m_Locked := true } := hq
  rw [hg] at h1
  simp at h1

/-- Construction by a pointer constructor keeps mutual exclusion. -/
theorem Program.MutualExclusion.afterCtor {debug : Bool} {s : Program}
    (hinv : s.MutualExclusion) (slot : Nat) (caller : ThreadId) (object : Option ObjId)
    (h1 : Heap) (g1 : ObjectLock) (hslot : s.guards slot = none)
    (hC : ObjectLock.ctorRaw debug caller s.heap object = .done (h1, g1)) :
    (s.setGuard h1 slot (some g1)).MutualExclusion := by
  rcases ObjectLock.ctorRaw_done hC with ⟨hh, hg⟩ | ⟨p, hfree, hg, hheld, hothers⟩
  · subst hh hg
    exact hinv.neutral slot _ (Program.not_holds_of_none hslot) (by intro q; simp)
  · subst hg
    exact hinv.acquire slot p h1 (Program.not_holds_of_none hslot) hfree hheld hothers

/-- Every call that returns, other than a copy construction, keeps mutual
exclusion. -/
theorem Program.MutualExclusion.step {debug : Bool} {s s1 : Program}
    (hinv : s.MutualExclusion) (a : Action) (hnc : a.isCopy = false)
    (hstep : s.step debug a = some s1) :
    s1.MutualExclusion := by
  cases a with
  | newCopy slot source => simp [Action.isCopy] at hnc
  | newDefault slot =>
    simp only [Program.step, ObjectLock.ctorDefault] at hstep
    cases hslot : s.guards slot with
    | some g0 => simp [hslot] at hstep
    | none =>
      simp only [hslot, Option.some.injEq] at hstep
      subst hstep
      exact hinv.neutral slot _ (Program.not_holds_of_none hslot) (by intro q; simp)
  | newPtr slot caller object =>
    simp only [Program.step, ObjectLock.ctorPtr_eq_ctorRaw] at hstep
    cases hslot : s.guards slot with
    | some g0 => simp [hslot] at hstep
    | none =>
      cases hC : ObjectLock.ctorRaw debug caller s.heap object with
      | done r =>
        obtain ⟨h1, g1⟩ := r
        simp only [hslot, hC, Option.some.injEq] at hstep
        subst hstep
        exact hinv.afterCtor slot caller object h1 g1 hslot hC
      | assertFailed r => simp [hslot, hC] at hstep
      | blocked r => simp [hslot, hC] at hstep
      | undefinedBehaviour => simp [hslot, hC] at hstep
  | newRaw slot caller object =>
    simp only [Program.step] at hstep
    cases hslot : s.guards slot with
    | some g0 => simp [hslot] at hstep
    | none =>
      cases hC : ObjectLock.ctorRaw debug caller s.heap object with
      | done r =>
        obtain ⟨h1, g1⟩ := r
        simp only [hslot, hC, Option.some.injEq] at hstep
        subst hstep
        exact hinv.afterCtor slot caller object h1 g1 hslot hC
      | assertFailed r => simp [hslot, hC] at hstep
      | blocked r => simp [hslot, hC] at hstep
      | undefinedBehaviour => simp [hslot, hC] at hstep
  | lock slot caller =>
    simp only [Program.step] at hstep
    cases hslot : s.guards slot with
    | none => simp [hslot] at hstep
    | some g0 =>
      cases hL : ObjectLock.Lock debug caller s.heap g0 with
      | done r =>
        obtain ⟨h1, g1⟩ := r
        simp only [hslot, hL, Option.some.injEq] at hstep
        subst hstep
        obtain ⟨p, hp, hfree, hg, hheld, hothers⟩ := ObjectLock.Lock_done hL
        subst hg
        refine hinv.acquire slot p h1 ?_ hfree hheld hothers
        intro q hq
        have e1 : s.guards slot = some { m_Object := some q, m_Locked := true } := hq
        rw [hslot] at e1
        have e2 : g0 = { m_Object := some q, m_Locked := true } := by simpa using e1
        rw [e2] at hp
        have e3 : q = p := by simpa using hp
        subst e3
        have := (hinv.2 q).2 ⟨slot, hq⟩
        simp [hfree] at this
      | assertFailed r => simp [hslot, hL] at hstep
      | blocked r => simp [hslot, hL] at hstep
      | undefinedBehaviour => simp [hslot, hL] at hstep
  | unlock slot =>
    simp only [Program.step] at hstep
    cases hslot : s.guards slot with
    | none => simp [hslot] at hstep
    | some g0 =>
      cases hU : ObjectLock.Unlock debug s.heap g0 with
      | done r =>
        obtain ⟨h1, g1⟩ := r
        simp only [hslot, hU, Option.some.injEq] at hstep
        subst hstep
        rcases ObjectLock.Unlock_done hU with ⟨hl, hh, hg⟩ | ⟨p, hg0, hg, hfree, hothers⟩
        · subst hh hg
          refine hinv.neutral slot _ (Program.not_holds_of_unlocked hslot hl) ?_
          intro q e
          have : g1 = { m_Object := some q, m_Locked := true } := by simpa using e
          rw [this] at hl
          simp at hl
        · subst hg0 hg
          exact hinv.release slot p h1 _ hslot hfree hothers (by intro q; simp)
      | assertFailed r => simp [hslot, hU] at hstep
      | blocked r => simp [hslot, hU] at hstep
      | undefinedBehaviour => simp [hslot, hU] at hstep
  | delete slot =>
    simp only [Program.step, ObjectLock.dtor] at hstep
    cases hslot : s.guards slot with
    | none => simp [hslot] at hstep
    | some g0 =>
      cases hU : ObjectLock.Unlock debug s.heap g0 with
      | done r =>
        obtain ⟨h1, g1⟩ := r
        simp only [hslot, hU, Option.some.injEq] at hstep
        subst hstep
        rcases ObjectLock.Unlock_done hU with ⟨hl, hh, hg⟩ | ⟨p, hg0, hg, hfree, hothers⟩
        · subst hh hg
          exact hinv.neutral slot _ (Program.not_holds_of_unlocked hslot hl) (by intro q; simp)
        · subst hg0 hg
          exact hinv.release slot p h1 _ hslot hfree hothers (by intro q; simp)
      | assertFailed r => simp [hslot, hU] at hstep
      | blocked r => simp [hslot, hU] at hstep
      | undefinedBehaviour => simp [hslot, hU] at hstep

/-- Every sequence of calls that all return, none of them a copy construction,
keeps mutual exclusion. -/
theorem Program.MutualExclusion.run {debug : Bool} (acts : List Action) :
    ∀ {s s1 : Program}, (∀ a ∈ acts, a.isCopy = false) → s.MutualExclusion →
      s.run debug acts = some s1 → s1.MutualExclusion := by
  induction acts with
  | nil =>
    intro s s1 _ hinv hrun
    simp only [Program.run, Option.some.injEq] at hrun
    subst hrun
    exact hinv
  | cons a rest ih =>
    intro s s1 hnc hinv hrun
    simp only [Program.run] at hrun
    cases hstep : s.step debug a with
    | none => simp [hstep] at hrun
    | some s2 =>
      simp only [hstep] at hrun
      exact ih (fun b hb => hnc b (List.mem_cons_of_mem a hb))
        (hinv.step a (hnc a (List.mem_cons_self a rest)) hstep) hrun

/-- `Lock` never rebinds the guard, however the call ends. -/
theorem ObjectLock.Lock_keeps_binding {debug : Bool} {caller : ThreadId} {h : Heap}
    {g : ObjectLock} {s : Heap × ObjectLock}
    (hL : ObjectLock.Lock debug caller h g = .done s ∨
      ObjectLock.Lock debug caller h g = .assertFailed s ∨
      ObjectLock.Lock debug caller h g = .blocked s) :
    s.2.m_Object = g.m_Object := by
  obtain ⟨o, l⟩ := g
  obtain ⟨h1, g1⟩ := s
  unfold ObjectLock.Lock at hL
  cases o with
  | none =>
    split at hL
    · simp at hL
      rw [← hL.2]
    · simp at hL
  | some p =>
    split at hL
    · simp at hL
      rw [← hL.2]
    · simp only at hL
      split at hL
      · simp at hL
        rw [← hL.2]
      · split at hL
        · simp at hL
          rw [← hL.2]
        · simp at hL
          rw [← hL.2]

/-- `Unlock` never rebinds the guard. -/
theorem ObjectLock.Unlock_keeps_binding {debug : Bool} {h : Heap}
    {g : ObjectLock} {s : Heap × ObjectLock}
    (hU : ObjectLock.Unlock debug h g = .done s) : s.2.m_Object = g.m_Object := by
  obtain ⟨h1, g1⟩ := s
  rcases ObjectLock.Unlock_done hU with ⟨-, -, hg⟩ | ⟨p, hg0, hg, -, -⟩
  · rw [hg]
  · rw [hg0, hg]

/-- C10. In every guard state reachable from a constructor (the copy constructor
included) through `Lock` and `Unlock` calls that returned, `m_Locked` true implies `m_Object` is not `NULL`.
`Lock` (however it ends) and `Unlock` leave `m_Object` as it was. When a guard
holding the entity at `p` is unlocked, the call returns a guard still bound to
`p`, and a following `Lock` on it by any thread returns with the guard holding
`p` again. -/
theorem ObjectLock.reachable_wellformed (debug : Bool) (g : ObjectLock)
    (hr : ObjectLock.Reachable debug g) :
    (g.m_Locked = true → g.m_Object ≠ none) ∧
    (∀ (caller : ThreadId) (h : Heap) (s : Heap × ObjectLock),
      (ObjectLock.Lock debug caller h g = .done s ∨
        ObjectLock.Lock debug caller h g = .assertFailed s ∨
        ObjectLock.Lock debug caller h g = .blocked s) →
      s.2.m_Object = g.m_Object) ∧
    (∀ (h : Heap) (s : Heap × ObjectLock),
      ObjectLock.Unlock debug h g = .done s → s.2.m_Object = g.m_Object) ∧
    (∀ (p : ObjId) (h : Heap) (caller : ThreadId),
      g = { m_Object := some p, m_Locked := true } →
      ∃ h1 h2 : Heap,
        ObjectLock.Unlock debug h g = .done (h1, { m_Object := some p, m_Locked := false }) ∧
        ObjectLock.Lock debug caller h1 { m_Object := some p, m_Locked := false }
          = .done (h2, { m_Object := some p, m_Locked := true })) := by
  refine ⟨?_, ?_, ?_, ?_⟩
  · intro hl
    induction hr with
    | ofDefault h h1 g hC =>
      simp [ObjectLock.ctorDefault] at hC
      rw [← hC.2] at hl
      simp at hl
    | ofPtr caller object h h1 g hC =>
      rw [ObjectLock.ctorPtr_eq_ctorRaw] at hC
      rcases ObjectLock.ctorRaw_done hC with ⟨-, hg⟩ | ⟨p, -, hg, -, -⟩
      · rw [hg] at hl; simp at hl
      · rw [hg]; simp
    | ofRaw caller object h h1 g hC =>
      rcases ObjectLock.ctorRaw_done hC with ⟨-, hg⟩ | ⟨p, -, hg, -, -⟩
      · rw [hg] at hl; simp at hl
      · rw [hg]; simp
    | ofCopy h h1 g0 g _ hC ih =>
      simp [ObjectLock.ctorCopy] at hC
      have hg : g = g0 := by rw [← hC.2]
      rw [hg] at hl ⊢
      exact ih hl
    | afterLock caller h h1 g0 g _ hL _ =>
      obtain ⟨p, -, -, hg, -, -⟩ := ObjectLock.Lock_done hL
      rw [hg]; simp
    | afterUnlock h h1 g0 g _ hU ih =>
      rcases ObjectLock.Unlock_done hU with ⟨hl0, -, hg⟩ | ⟨p, -, hg, -, -⟩
      · rw [hg] at hl
        rw [hl0] at hl
        simp at hl
      · rw [hg] at hl; simp at hl
  · intro caller h s hL
    exact ObjectLock.Lock_keeps_binding hL
  · intro h s hU
    exact ObjectLock.Unlock_keeps_binding hU
  · intro p h caller hg
    subst hg
    cases debug
    · exact ⟨_, _, by simp [ObjectLock.Unlock]; rfl,
        by simp [ObjectLock.Lock, Mutex.Unlock]; rfl⟩
    · exact ⟨_, _, by simp [ObjectLock.Unlock]; rfl,
        by simp [ObjectLock.Lock, Mutex.Unlock, Object.OwnsLock]; rfl⟩

/-- C10 at a concrete input: the guard that thread 7 constructs on the entity at
address 0 of the fresh heap in a debug build. -/
theorem ObjectLock.reachable_wellformed_witness :
    ObjectLock.Reachable true { m_Object := some 0, m_Locked := true } ∧
    (({ m_Object := some 0, m_Locked := true } : ObjectLock).m_Locked = true →
      ({ m_Object := some 0, m_Locked := true } : ObjectLock).m_Object ≠ none) ∧
    ∃ h1 h2 : Heap,
      ObjectLock.Unlock true (Heap.heldBy 7) { m_Object := some 0, m_Locked := true }
        = .done (h1, { m_Object := some 0, m_Locked := false }) ∧
      ObjectLock.Lock true 7 h1 { m_Object := some 0, m_Locked := false }
        = .done (h2, { m_Object := some 0, m_Locked := true }) :=
  ⟨ObjectLock.Reachable.ofRaw 7 (some 0) Heap.fresh _ _ rfl,
   (ObjectLock.reachable_wellformed true { m_Object := some 0, m_Locked := true }
     (ObjectLock.Reachable.ofRaw 7 (some 0) Heap.fresh _ _ rfl)).1,
   (ObjectLock.reachable_wellformed true { m_Object := some 0, m_Locked := true }
     (ObjectLock.Reachable.ofRaw 7 (some 0) Heap.fresh _ _ rfl)).2.2.2 0 (Heap.heldBy 7) 7 rfl⟩

/-! ## The Sum aggregator -/

/-- The accumulator after any number of `Apply` calls: what it was, or the seed
if the slot was empty, plus the values of the rows. -/
theorem SumAggregator.foldl_Apply {ρ : Type} (self : SumAggregator) (table : Table ρ)
    (rows : List ρ) :
    ∀ state : Option SumAggregatorState,
      (SumAggregator.EnsureState
        (rows.foldl (fun state row => self.Apply table row state) state)).Sum
      = (SumAggregator.EnsureState state).Sum
        + (rows.map (fun row => (table.GetValue row self.m_SumAttr).toDouble)).sum := by
  induction rows with
  | nil => intro state; simp
  | cons row rest ih =>
    intro state
    rw [List.foldl_cons, ih]
    simp [SumAggregator.Apply, SumAggregator.EnsureState, add_assoc]

/-- The result of one pass over a group is the sum of the coerced values of its
rows. -/
theorem SumAggregator.runGroup_eq {ρ : Type} (self : SumAggregator) (table : Table ρ)
    (rows : List ρ) :
    self.runGroup table rows
      = (rows.map (fun row => (table.GetValue row self.m_SumAttr).toDouble)).sum := by
  simp only [SumAggregator.runGroup, SumAggregator.GetResultAndFreeState]
  rw [SumAggregator.foldl_Apply]
  simp [SumAggregator.EnsureState]

/-- C7. Let the configured attribute of the rows have the numeric values `vs`.
Starting from an empty slot, one `Apply` per row followed by
`GetResultAndFreeState` returns the sum of `vs`, and every permutation of the
rows gives the same result. On the three rows whose attribute "a" is 10, 0 and
-5 the result is 5. Sums are exact (rational numbers). -/
theorem SumAggregator.runGroup_sum {ρ : Type} (self : SumAggregator) (table : Table ρ)
    (rows : List ρ) (vs : List ℚ)
    (hnum : rows.map (fun row => table.GetValue row self.m_SumAttr) = vs.map Value.number) :
    self.runGroup table rows = vs.sum ∧
    (∀ rows2 : List ρ, rows.Perm rows2 →
      self.runGroup table rows2 = self.runGroup table rows) ∧
    SumAggregator.runGroup { m_SumAttr := "a" } Row.table Row.scenario = 5 := by
  refine ⟨?_, ?_, ?_⟩
  · rw [SumAggregator.runGroup_eq]
    have hmap : rows.map (fun row => (table.GetValue row self.m_SumAttr).toDouble)
        = (rows.map (fun row => table.GetValue row self.m_SumAttr)).map Value.toDouble := by
      simp [List.map_map, Function.comp_def]
    rw [hmap, hnum, List.map_map]
    have hid : (Value.toDouble ∘ Value.number) = id := by
      funext v; rfl
    rw [hid, List.map_id]
  · intro rows2 hperm
    rw [SumAggregator.runGroup_eq, SumAggregator.runGroup_eq]
    exact ((hperm.map _).sum_eq).symm
  · rw [SumAggregator.runGroup_eq]
    simp [Row.scenario, Row.table, Row.GetValue, List.lookup, Value.toDouble]
    norm_num

/-- C7 at a concrete input: the scenario rows, whose attribute "a" has the
values 10, 0 and -5. -/
theorem SumAggregator.runGroup_sum_witness :
    Row.scenario.map (fun row => Row.table.GetValue row "a")
      = [10, 0, -5].map Value.number ∧
    SumAggregator.runGroup { m_SumAttr := "a" } Row.table Row.scenario
      = ([10, 0, -5] : List ℚ).sum ∧
    SumAggregator.runGroup { m_SumAttr := "a" } Row.table Row.scenario.reverse
      = SumAggregator.runGroup { m_SumAttr := "a" } Row.table Row.scenario :=
  ⟨by decide,
   (SumAggregator.runGroup_sum { m_SumAttr := "a" } Row.table Row.scenario [10, 0, -5]
      (by decide)).1,
   (SumAggregator.runGroup_sum { m_SumAttr := "a" } Row.table Row.scenario [10, 0, -5]
      (by decide)).2.1 _ (List.reverse_perm _).symm⟩

/-- C8. A freshly created `SumAggregatorState` has `Sum` equal to 0; the
accumulator that `EnsureState` puts into an empty slot is such a state; and
finalizing a group that received no `Apply` call yields 0 and leaves the slot
empty. -/
theorem SumAggregator.seed_zero {ρ : Type} (self : SumAggregator) (table : Table ρ) :
    ({} : SumAggregatorState).Sum = 0 ∧
    SumAggregator.EnsureState none = { Sum := 0 } ∧
    self.GetResultAndFreeState none = (0, none) ∧
    self.runGroup table [] = 0 := by
  refine ⟨rfl, rfl, rfl, rfl⟩

end icinga
